import Mathlib

/-!
# budgetwarrior: the earnings module

A shallow embedding of `src/earnings.cpp`: the text codec of an earning
(`operator<<`, `operator>>`), the module-level store accessors, the command
dispatcher `earnings_module::handle` and the two listing functions
`search_earnings` and `show_earnings`.

`std::string` is embedded as a list of characters.  The helpers that
`earnings.cpp` calls but that live in other files of the repository
(`to_number`, `to_string`, `parse_money`, `from_string`, `split`,
`data_handler`, `enough_args`) are modelled from the specification and are
marked as such.
-/

namespace budget

/-- A `std::string`, as the list of its characters. -/
abbrev Str := List Char

/-- What an operation can signal.  `budget_exception` is the exception thrown in
`earnings.cpp`; `parse_error` and `not_found` are the specification's
`ParseError` and `NotFoundError`; `out_of_range` stands for an index past the
end of a `std::vector` (undefined behaviour in C++, kept as a distinct result so
that it is never mistaken for a signalled error). -/
inductive error where
  | budget_exception (msg : Str)
  | parse_error
  | not_found
  | out_of_range
  deriving DecidableEq, Repr

/-! ## Rendering and parsing of the field types -/

/-- The decimal digit character of `d`, for `d < 10`. -/
def digit_char (d : Nat) : Char :=
  match d with
  | 0 => '0' | 1 => '1' | 2 => '2' | 3 => '3' | 4 => '4'
  | 5 => '5' | 6 => '6' | 7 => '7' | 8 => '8' | _ => '9'

/-- The value of a decimal digit character, `none` for any other character. -/
def digit_value (c : Char) : Option Nat :=
  if c = '0' then some 0 else if c = '1' then some 1 else if c = '2' then some 2
  else if c = '3' then some 3 else if c = '4' then some 4 else if c = '5' then some 5
  else if c = '6' then some 6 else if c = '7' then some 7 else if c = '8' then some 8
  else if c = '9' then some 9 else none

/-- Little-endian decimal digits of `n`, with `fuel` bounding the number of digits. -/
def digits_fuel : Nat → Nat → List Nat
  | 0, _ => []
  | fuel + 1, n => if n = 0 then [] else n % 10 :: digits_fuel fuel (n / 10)

/-- Modelled from the spec: `to_string` / `operator<<` of an unsigned integer
(`utils.hpp`, not under src/): "integers as decimal", most significant digit
first, no leading zero, `0` for zero. -/
def to_string (n : Nat) : Str :=
  if n = 0 then ['0'] else (digits_fuel n n).reverse.map digit_char

/-- Reads decimal digits left to right into the accumulator; `none` at the first
character that is not a digit. -/
def parse_digits : Nat → Str → Option Nat
  | acc, [] => some acc
  | acc, c :: cs =>
    match digit_value c with
    | some d => parse_digits (10 * acc + d) cs
    | none => none

/-- The largest value of a `size_t`, the type of an id, of an account id and of
`next_id` in `earnings.cpp` (64 bits). -/
def size_max : Nat := 18446744073709551615

/-- Modelled from the spec: `to_number<T>` (`utils.hpp`, not under src/):
"Numeric/date fields fail with `ParseError` if not convertible to their semantic
type"; a text converts when it is a non-empty run of decimal digits.  The value
is the number the digits denote; the width of `T` is not part of the
conversion, so a statement about a text read as a `size_t` asks that its value
be at most `size_max`. -/
def to_number (s : Str) : Except error Nat :=
  match s with
  | [] => .error .parse_error
  | _ =>
    match parse_digits 0 s with
    | some n => .ok n
    | none => .error .parse_error

/-- Modelled from the spec: the `money` type (`money.hpp`, not under src/):
"an exact decimal money value, not floating point"; the value is a whole number
of cents. -/
structure money where
  value : Int
  deriving DecidableEq, Repr

/-- Modelled from the spec: `money::operator+=`, exact addition of cents. -/
def money.add (a b : money) : money := ⟨a.value + b.value⟩

/-- Two decimal digits of `n` (for `n < 100`). -/
def two_digits (n : Nat) : Str := [digit_char (n / 10 % 10), digit_char (n % 10)]

/-- Four decimal digits of `n` (for `n < 10000`). -/
def four_digits (n : Nat) : Str :=
  [digit_char (n / 1000 % 10), digit_char (n / 100 % 10), digit_char (n / 10 % 10),
    digit_char (n % 10)]

/-- Modelled from the spec: `operator<<` / `to_string` of a `money`
(`money.hpp`, not under src/): "money as a fixed-point decimal string with exact
cent precision", "two fractional digits"; a minus sign for a negative value. -/
def money_to_string (m : money) : Str :=
  (if m.value < 0 then ['-'] else []) ++ to_string (m.value.natAbs / 100) ++ ['.'] ++
    two_digits (m.value.natAbs % 100)

/-- The unsigned part of a money text: digits, a dot, exactly two digits. -/
def parse_money_abs (s : Str) : Except error Nat :=
  match s.splitOn '.' with
  | [d, c] =>
    match to_number d, to_number c with
    | .ok dollars, .ok cents =>
      if c.length = 2 then .ok (dollars * 100 + cents) else .error .parse_error
    | _, _ => .error .parse_error
  | _ => .error .parse_error

/-- Modelled from the spec: `parse_money` (`money.hpp`, not under src/): reads
the fixed-point format written by `money_to_string`; `ParseError` for any other
text. -/
def parse_money (s : Str) : Except error money :=
  match s with
  | '-' :: t =>
    match parse_money_abs t with
    | .ok v => .ok ⟨-(v : Int)⟩
    | .error e => .error e
  | _ =>
    match parse_money_abs s with
    | .ok v => .ok ⟨(v : Int)⟩
    | .error e => .error e

/-- Modelled from the spec: the `date` type (`date.hpp`, not under src/), with
the `year()`, `month()` and `day()` components `earnings.cpp` reads. -/
structure date where
  year : Nat
  month : Nat
  day : Nat
  deriving DecidableEq, Repr

/-- Modelled from the spec: `to_string(date)` (`date.hpp`, not under src/):
"dates as a fixed `YYYY-MM-DD`-equivalent format". -/
def date_to_string (d : date) : Str :=
  four_digits d.year ++ ['-'] ++ two_digits d.month ++ ['-'] ++ two_digits d.day

/-- Modelled from the spec: `from_string` (`date.hpp`, not under src/): reads
the fixed `YYYY-MM-DD` format; `ParseError` for any other text. -/
def from_string (s : Str) : Except error date :=
  match s with
  | [y1, y2, y3, y4, s1, m1, m2, s2, d1, d2] =>
    if s1 = '-' ∧ s2 = '-' then
      match to_number [y1, y2, y3, y4], to_number [m1, m2], to_number [d1, d2] with
      | .ok y, .ok m, .ok d => .ok ⟨y, m, d⟩
      | _, _, _ => .error .parse_error
    else .error .parse_error
  | _ => .error .parse_error

/-- Modelled from the spec: `split(line, ':')` (`utils.hpp`, not under src/):
"splits on the delimiter into a fixed number of parts". -/
def split (line : Str) (delim : Char) : List Str := line.splitOn delim

/-! ## The earning record and its codec -/

/-- The `earning` record (`earnings.hpp`), with the six fields `earnings.cpp`
reads and writes. -/
structure earning where
  id : Nat
  guid : Str
  account : Nat
  name : Str
  amount : money
  date : date
  deriving DecidableEq, Repr

/-- Source function `operator<<(std::ostream&, const earning&)`: the six fields in the order
id, guid, account, name, amount, date, with `':'` between them; guid and name
are written as they are. -/
def encode (e : earning) : Str :=
  to_string e.id ++ [':'] ++ e.guid ++ [':'] ++ to_string e.account ++ [':'] ++ e.name ++
    [':'] ++ money_to_string e.amount ++ [':'] ++ date_to_string e.date

/-- Element `parts[i]` of a `std::vector<std::string>`; an index past the end is
`out_of_range`. -/
def part (parts : List Str) (i : Nat) : Except error Str :=
  match parts[i]? with
  | some p => .ok p
  | none => .error .out_of_range

/-- Source function `operator>>(const std::vector<std::string>&, earning&)`.  `random` is
`config_contains("random")` and `random_money` is the generator of
`budget::random_money` (both outside src/, taken as parameters).  The fields are
read in the order of the source: id, guid, account, name, date, then the amount,
which is `random_money(10, 5000)` in random mode and `parse_money(parts[4])`
otherwise.  There is no test of `parts.size()`. -/
def decode (random : Bool) (random_money : Nat → Nat → money) (parts : List Str) :
    Except error earning := do
  let id ← (part parts 0) >>= to_number
  let guid ← part parts 1
  let account ← (part parts 2) >>= to_number
  let name ← part parts 3
  let date ← (part parts 5) >>= from_string
  if random then
    pure { id := id, guid := guid, account := account, name := name,
           amount := random_money 10 5000, date := date }
  else
    let amount ← (part parts 4) >>= parse_money
    pure { id := id, guid := guid, account := account, name := name,
           amount := amount, date := date }

/-! ## The store behind the module -/

/-- Modelled from the spec: `data_handler<earning>` (`data.hpp`, not under
src/), the "Record Store": `data` in insertion order, `next_id`, and the dirty
flag `changed`.  It is the module-level object `earnings` of `earnings.cpp`,
passed explicitly. -/
structure data_handler where
  next_id : Nat
  data : List earning
  changed : Bool
  deriving DecidableEq, Repr

/-- Modelled from the spec: `data_handler::exists` (`data.hpp`, not under src/):
"`exists(id) -> bool`", whether a record of `data` has this id. -/
def data_handler.exists (s : data_handler) (id : Nat) : Bool :=
  s.data.any (fun e => e.id == id)

/-- Modelled from the spec: `data_handler::set_changed` (`data.hpp`, not under
src/): marks the store dirty. -/
def data_handler.set_changed (s : data_handler) : data_handler :=
  { s with changed := true }

/-- Modelled from the spec: `data_handler::add` (`data.hpp`, not under src/):
"assigns `id = next_id`, increments `next_id`, assigns `guid` if absent, appends
to `data`, sets `changed = true`"; returns the id.  `fresh_guid` is the token a
guid generator would hand out; an absent guid is the empty string.  `next_id`
is a `size_t` (`set_earnings_next_id(size_t)`), so the increment is taken
modulo `size_max + 1`. -/
def data_handler.add (fresh_guid : Str) (s : data_handler) (e : earning) :
    Nat × data_handler :=
  (s.next_id,
   { next_id := (s.next_id + 1) % (size_max + 1),
     data := s.data ++ [{ e with id := s.next_id,
                                 guid := if e.guid = [] then fresh_guid else e.guid }],
     changed := true })

/-- Modelled from the spec: `data_handler::remove` (`data.hpp`, not under
src/): "signals `NotFoundError` if absent; otherwise erases the record, sets
`changed = true`. Does not decrement `next_id`". -/
def data_handler.remove (s : data_handler) (id : Nat) : Except error data_handler :=
  if s.exists id then
    .ok { s with data := s.data.filter (fun e => e.id != id), changed := true }
  else .error .not_found

/-- Source function `all_earnings`. -/
def all_earnings (s : data_handler) : List earning := s.data

/-- Source function `set_earnings_changed`. -/
def set_earnings_changed (s : data_handler) : data_handler := s.set_changed

/-- Source function `set_earnings_next_id`: stores its argument in `next_id`, unconditionally. -/
def set_earnings_next_id (next_id : Nat) (s : data_handler) : data_handler :=
  { s with next_id := next_id }

/-- Source function `add_earning`: forwards to `earnings.add`, dropping the returned id. -/
def add_earning (fresh_guid : Str) (e : earning) (s : data_handler) : data_handler :=
  (s.add fresh_guid e).2

/-- Source function `earning_exists`. -/
def earning_exists (id : Nat) (s : data_handler) : Bool := s.exists id

/-- Source function `earning_delete`: throws when `earnings.exists(id)` is false, else calls
`earnings.remove(id)`.  The second component is the store after the call,
whether or not an exception was thrown. -/
def earning_delete (id : Nat) (s : data_handler) : Except error Unit × data_handler :=
  if !s.exists id then
    (.error (.budget_exception "There are no earning with id ".toList), s)
  else
    match s.remove id with
    | .ok s' => (.ok (), s')
    | .error e => (.error e, s)

/-! ## The command dispatcher -/

/-- What `earnings_module::handle` goes on to do once the arguments are
accepted: the call made by the selected branch.  The interactive prompts of
`add` and `edit` and the console output are outside the embedding. -/
inductive action where
  | show_earnings
  | show_earnings_month (month : Nat)
  | show_earnings_month_year (month year : Nat)
  | show_all_earnings
  | add
  | delete (id : Nat)
  | edit (id : Nat)
  deriving DecidableEq, Repr

/-- Modelled from the spec: `enough_args(args, min)` (`args.hpp`, not under
src/): a usage error when fewer than `min` arguments are given. -/
def enough_args (args : List Str) (min : Nat) : Except error Unit :=
  if args.length < min then .error (.budget_exception "Not enough args".toList) else .ok ()

/-- Source function `earnings_module::handle`.  `args[0]` is the module name and `args[1]` the
subcommand.  The result is the exception thrown or the call dispatched. -/
def handle (s : data_handler) (args : List Str) : Except error action :=
  if args.length = 1 then
    .ok .show_earnings
  else do
    let subcommand ← part args 1
    if subcommand = "show".toList then
      if args.length = 2 then
        .ok .show_earnings
      else if args.length = 3 then do
        let m ← (part args 2) >>= to_number
        .ok (.show_earnings_month m)
      else if args.length = 4 then do
        let m ← (part args 2) >>= to_number
        let y ← (part args 3) >>= to_number
        .ok (.show_earnings_month_year m y)
      else
        .error (.budget_exception "Too many arguments to earning show".toList)
    else if subcommand = "all".toList then
      .ok .show_all_earnings
    else if subcommand = "add".toList then
      .ok .add
    else if subcommand = "delete".toList then do
      enough_args args 3
      let id ← (part args 2) >>= to_number
      if !s.exists id then
        .error (.budget_exception "There are no earning with id ".toList)
      else
        .ok (.delete id)
    else if subcommand = "edit".toList then do
      enough_args args 3
      let a2 ← part args 2
      let id ← to_number a2
      if !s.exists id then
        .error (.budget_exception ("There are no earning with id ".toList ++ a2))
      else
        .ok (.edit id)
    else
      .error (.budget_exception ("Invalid subcommand \"".toList ++ subcommand ++ "\"".toList))

/-! ## The listings -/

/-- What is sent to a `budget::writer`, item by item. -/
inductive token where
  | title_begin
  | title_end
  | end_of_line
  | text (s : Str)
  | month (m : Nat)
  | year (y : Nat)
  | add_button (module : Str)
  | year_month_selector (page : Str) (year month : Nat)
  | display_table (columns : List Str) (contents : List (List Str)) (groups : Nat)
      (lines : List Nat) (left foot : Nat)
  deriving DecidableEq, Repr

/-- A `budget::writer`: the items written so far. -/
abbrev writer := List token

/-- The call `std::transform(..., ::tolower)`: every character lower-cased. -/
def to_lower (s : Str) : Str := s.map Char.toLower

/-- The library's `std::string::find`: the position of the first occurrence of `pat` in `s`
at or after `pos` (counted from `pos`), `none` for `npos`. -/
def find_from : Str → Str → Nat → Option Nat
  | [], pat, pos => if pat = [] then some pos else none
  | c :: cs, pat, pos =>
    if pat.isPrefixOf (c :: cs) then some pos else find_from cs pat (pos + 1)

/-- The call `s.find(pat)`. -/
def find (s pat : Str) : Option Nat := find_from s pat 0

/-- The table row pushed for one earning; `account_name id` is
`get_account(id).name` (accounts module, outside src/, taken as a parameter). -/
def earning_row (account_name : Nat → Str) (e : earning) : List Str :=
  [to_string e.id, date_to_string e.date, account_name e.account, e.name,
   money_to_string e.amount, "::edit::earnings::".toList ++ to_string e.id]

/-- The row closing a listing. -/
def total_row (total : money) : List Str :=
  [[], [], [], "Total".toList, money_to_string total, []]

/-- The column titles of both listings. -/
def listing_columns : List Str :=
  ["ID".toList, "Date".toList, "Account".toList, "Name".toList, "Amount".toList,
   "Edit".toList]

/-- The loop variables of both listings: `contents`, `total`, `count`. -/
structure listing where
  contents : List (List Str)
  total : money
  count : Nat
  deriving DecidableEq, Repr

/-- One iteration of the loop of `search_earnings`. -/
def search_step (account_name : Nat → Str) (l_search : Str) (acc : listing) (e : earning) :
    listing :=
  let l_name := to_lower e.name
  if find l_name l_search != none then
    { contents := acc.contents ++ [earning_row account_name e],
      total := acc.total.add e.amount,
      count := acc.count + 1 }
  else acc

/-- Source function `search_earnings`: returns the store (read through `earnings.data`) and the
writer after the call. -/
def search_earnings (account_name : Nat → Str) (search : Str) (s : data_handler)
    (w : writer) : data_handler × writer :=
  let w1 := w ++ [.title_begin, .text "Results".toList, .title_end]
  let l_search := to_lower search
  let r := s.data.foldl (search_step account_name l_search) ⟨[], ⟨0⟩, 0⟩
  if r.count = 0 then
    (s, w1 ++ [.text "No earnings found".toList, .end_of_line])
  else
    (s, w1 ++ [.display_table listing_columns (r.contents ++ [total_row r.total]) 1 [] 0 1])

/-- One iteration of the loop of `show_earnings(month, year, w)`. -/
def show_step (account_name : Nat → Str) (month year : Nat) (acc : listing) (e : earning) :
    listing :=
  if e.date.year = year ∧ e.date.month = month then
    { contents := acc.contents ++ [earning_row account_name e],
      total := acc.total.add e.amount,
      count := acc.count + 1 }
  else acc

/-- Source function `show_earnings(month, year, w)`: returns the store and the writer after the
call. -/
def show_earnings (account_name : Nat → Str) (month year : Nat) (s : data_handler)
    (w : writer) : data_handler × writer :=
  let w1 := w ++ [.title_begin, .text "Earnings of ".toList, .month month, .text " ".toList,
    .year year, .text " ".toList, .add_button "earnings".toList,
    .year_month_selector "earnings".toList year month, .title_end]
  let r := s.data.foldl (show_step account_name month year) ⟨[], ⟨0⟩, 0⟩
  if r.count = 0 then
    (s, w1 ++ [.text "No earnings for ".toList, .month month, .text "-".toList, .year year,
      .end_of_line])
  else
    (s, w1 ++ [.display_table listing_columns (r.contents ++ [total_row r.total]) 1 [] 0 1])

/-! ## Canonical format of a line -/

/-- A decimal number in canonical form: a non-empty run of digits with no
leading zero, `0` itself apart. -/
def canonical_number (s : Str) : Prop :=
  s ≠ [] ∧ (∀ c ∈ s, (digit_value c).isSome) ∧ (s.head? = some '0' → s = ['0'])

instance (s : Str) : Decidable (canonical_number s) := by
  unfold canonical_number
  infer_instance

/-- An unsigned amount in canonical form: a canonical number, a dot, two digits. -/
def canonical_money_abs (s : Str) : Prop :=
  match s.splitOn '.' with
  | [d, c] => canonical_number d ∧ c.length = 2 ∧ ∀ x ∈ c, (digit_value x).isSome
  | _ => False

instance (s : Str) : Decidable (canonical_money_abs s) := by
  unfold canonical_money_abs
  split <;> infer_instance

/-- An amount in canonical form: an unsigned amount, or a minus sign and an
unsigned amount other than `0.00`. -/
def canonical_money (s : Str) : Prop :=
  match s with
  | '-' :: t => canonical_money_abs t ∧ t ≠ "0.00".toList
  | _ => canonical_money_abs s

instance (s : Str) : Decidable (canonical_money s) := by
  unfold canonical_money
  split <;> infer_instance

/-- A text whose value `to_number` reads is at most `size_max`. -/
def fits_size_t (s : Str) : Prop :=
  match to_number s with
  | .ok n => n ≤ size_max
  | .error _ => False

instance (s : Str) : Decidable (fits_size_t s) := by
  unfold fits_size_t
  split <;> infer_instance

/-- A `size_t` in canonical form: a canonical number that a `size_t` can hold. -/
def canonical_size_t (s : Str) : Prop := canonical_number s ∧ fits_size_t s

instance (s : Str) : Decidable (canonical_size_t s) := by
  unfold canonical_size_t
  infer_instance

/-- The layout of a date: four digits, `-`, two digits, `-`, two digits. -/
def date_layout (s : Str) : Prop :=
  match s with
  | [y1, y2, y3, y4, s1, m1, m2, s2, d1, d2] =>
    s1 = '-' ∧ s2 = '-' ∧ ∀ c ∈ [y1, y2, y3, y4, m1, m2, d1, d2], (digit_value c).isSome
  | _ => False

instance (s : Str) : Decidable (date_layout s) := by
  unfold date_layout
  split <;> infer_instance

/-- A date that fits the fixed `YYYY-MM-DD` format: a four-digit year, a month
and a day of the calendar. -/
def date.valid (d : date) : Prop :=
  d.year ≤ 9999 ∧ 1 ≤ d.month ∧ d.month ≤ 12 ∧ 1 ≤ d.day ∧ d.day ≤ 31

instance (d : date) : Decidable d.valid := by
  unfold date.valid
  infer_instance

/-- A text that `from_string` reads as a date with a month from 1 to 12 and a
day from 1 to 31. -/
def reads_valid_date (s : Str) : Prop :=
  match from_string s with
  | .ok d => d.valid
  | .error _ => False

instance (s : Str) : Decidable (reads_valid_date s) := by
  unfold reads_valid_date
  split <;> infer_instance

/-- A date in canonical form: the layout `YYYY-MM-DD`, with a month from 01 to
12 and a day from 01 to 31. -/
def canonical_date (s : Str) : Prop := date_layout s ∧ reads_valid_date s

instance (s : Str) : Decidable (canonical_date s) := by
  unfold canonical_date
  infer_instance

/-- A well-formed earnings line: six ':'-separated fields, of which the id and
the account are canonical numbers that a `size_t` can hold, the amount a
canonical amount and the date a canonical date; the guid and the name are free
text. -/
def well_formed (line : Str) : Prop :=
  match split line ':' with
  | [id, _, account, _, amount, date] =>
    canonical_size_t id ∧ canonical_size_t account ∧ canonical_money amount ∧
      canonical_date date
  | _ => False

instance (line : Str) : Decidable (well_formed line) := by
  unfold well_formed
  split <;> infer_instance

/-! ## Predicates and sample data used by the statements -/

/-- The six renderings `operator<<` writes, in order. -/
def fields (e : earning) : List Str :=
  [to_string e.id, e.guid, to_string e.account, e.name, money_to_string e.amount,
   date_to_string e.date]

/-- A salary of 1234.56 received on 2018-03-09. -/
def salary : earning :=
  ⟨12, "6f1c-77".toList, 3, "Salary".toList, ⟨123456⟩, ⟨2018, 3, 9⟩⟩

/-- An earning whose name holds the delimiter. -/
def colon_name : earning :=
  ⟨1, "g".toList, 2, "a:b".toList, ⟨500⟩, ⟨2018, 1, 1⟩⟩

/-- Seven parts: the six of `salary` and one more. -/
def seven_parts : List Str :=
  ["12".toList, "6f1c-77".toList, "3".toList, "Salary".toList, "1234.56".toList,
   "2018-03-09".toList, "extra".toList]

/-- The six parts of `salary`. -/
def six_parts : List Str :=
  ["12".toList, "6f1c-77".toList, "3".toList, "Salary".toList, "1234.56".toList,
   "2018-03-09".toList]

/-- The store invariant: `next_id` strictly exceeds every id present in `data`. -/
def store_invariant (s : data_handler) : Prop := ∀ e ∈ s.data, e.id < s.next_id

instance (s : data_handler) : Decidable (store_invariant s) := by
  unfold store_invariant
  infer_instance

/-- A store holding `salary` (id 12), with `next_id = 13`. -/
def salary_store : data_handler := ⟨13, [salary], false⟩

/-- The five subcommands. -/
def subcommands : List Str :=
  ["show".toList, "all".toList, "add".toList, "edit".toList, "delete".toList]

/-- A store with the three names of the search scenario. -/
def rent_store : data_handler :=
  ⟨4, [⟨1, "a1".toList, 1, "Rent".toList, ⟨100000⟩, ⟨2018, 1, 5⟩⟩,
       ⟨2, "a2".toList, 1, "Groceries".toList, ⟨25050⟩, ⟨2018, 1, 9⟩⟩,
       ⟨3, "a3".toList, 2, "RENTAL".toList, ⟨45025⟩, ⟨2018, 2, 1⟩⟩], false⟩

/-- The line of `salary`. -/
def salary_line : Str := "12:6f1c-77:3:Salary:1234.56:2018-03-09".toList

/-- A second line, with an empty guid. -/
def rent_line : Str := "1::1:Rent:1000.00:2018-01-05".toList

/-- A line whose id is `size_max + 1`. -/
def wide_id_line : Str := "18446744073709551616:g:1:x:1.00:2018-01-01".toList

/-- A line whose date has month 99 and day 99. -/
def month_99_line : Str := "1:g:1:x:1.00:2018-99-99".toList

/-- A store whose `next_id` is the largest `size_t`. -/
def full_store : data_handler := ⟨size_max, [salary], false⟩

/-! ## Decimal digits -/

theorem digit_value_digit_char {d : Nat} (h : d < 10) : digit_value (digit_char d) = some d := by
  interval_cases d <;> rfl

theorem digit_char_of_digit_value {c : Char} {d : Nat} (h : digit_value c = some d) :
    d < 10 ∧ digit_char d = c := by
  unfold digit_value at h
  split_ifs at h <;> (cases h; subst_vars; exact ⟨by decide, rfl⟩)

theorem digits_fuel_eq (fuel n : Nat) (h : n ≤ fuel) : digits_fuel fuel n = Nat.digits 10 n := by
  induction fuel generalizing n with
  | zero =>
    have : n = 0 := by omega
    subst this
    simp [digits_fuel]
  | succ f ih =>
    unfold digits_fuel
    by_cases hn : n = 0
    · simp [hn]
    · rw [if_neg hn, ih (n / 10) (by omega)]
      exact (Nat.digits_def' (by norm_num) (by omega)).symm

theorem to_string_pos {n : Nat} (h : n ≠ 0) :
    to_string n = (Nat.digits 10 n).reverse.map digit_char := by
  simp [to_string, h, digits_fuel_eq n n le_rfl]

theorem parse_digits_map (B : List Nat) (hB : ∀ d ∈ B, d < 10) (acc : Nat) :
    parse_digits acc (B.map digit_char) =
      some (Nat.ofDigits 10 B.reverse + 10 ^ B.length * acc) := by
  induction B generalizing acc with
  | nil => simp [parse_digits]
  | cons d B ih =>
    have hd : d < 10 := hB d (by simp)
    have hB' : ∀ x ∈ B, x < 10 := fun x hx => hB x (by simp [hx])
    simp only [List.map_cons, parse_digits, digit_value_digit_char hd, ih hB', List.reverse_cons,
      Nat.ofDigits_append, Nat.ofDigits_singleton, List.length_reverse, List.length_cons]
    congr 1
    ring

theorem to_string_ne_nil (n : Nat) : to_string n ≠ [] := by
  by_cases h : n = 0
  · simp [to_string, h]
  · rw [to_string_pos h]
    simpa using (Nat.digits_ne_nil_iff_ne_zero.mpr h)

/-- Every character `to_string` writes is a decimal digit. -/
theorem to_string_digits (n : Nat) : ∀ c ∈ to_string n, (digit_value c).isSome := by
  intro c hc
  by_cases h : n = 0
  · simp [to_string, h] at hc
    subst hc
    rfl
  · rw [to_string_pos h] at hc
    simp only [List.mem_map, List.mem_reverse] at hc
    obtain ⟨d, hd, rfl⟩ := hc
    rw [digit_value_digit_char (Nat.digits_lt_base (by norm_num) hd)]
    rfl

theorem to_number_eq {s : Str} (h : s ≠ []) :
    to_number s = match parse_digits 0 s with
      | some n => .ok n
      | none => .error .parse_error := by
  cases s with
  | nil => exact absurd rfl h
  | cons c cs => rfl

theorem to_number_to_string (n : Nat) : to_number (to_string n) = .ok n := by
  by_cases h : n = 0
  · subst h
    rfl
  · have hne := to_string_ne_nil n
    have hp : parse_digits 0 (to_string n) = some n := by
      rw [to_string_pos h, parse_digits_map _ (by
        intro d hd
        exact Nat.digits_lt_base (by norm_num) (List.mem_reverse.mp hd))]
      simp [Nat.ofDigits_digits]
    rw [to_number_eq hne, hp]

theorem digit_ne_of_isSome {c x : Char} (hc : (digit_value c).isSome)
    (hx : digit_value x = none) : c ≠ x := by
  intro h
  subst h
  rw [hx] at hc
  exact absurd hc (by decide)

theorem two_digits_digits (n : Nat) : ∀ c ∈ two_digits n, (digit_value c).isSome := by
  intro c hc
  simp only [two_digits, List.mem_cons, List.mem_singleton, List.not_mem_nil, or_false] at hc
  rcases hc with rfl | rfl <;>
    rw [digit_value_digit_char (Nat.mod_lt _ (by norm_num))] <;> rfl

theorem four_digits_digits (n : Nat) : ∀ c ∈ four_digits n, (digit_value c).isSome := by
  intro c hc
  simp only [four_digits, List.mem_cons, List.mem_singleton, List.not_mem_nil, or_false] at hc
  rcases hc with rfl | rfl | rfl | rfl <;>
    rw [digit_value_digit_char (Nat.mod_lt _ (by norm_num))] <;> rfl

theorem to_number_two_digits {n : Nat} (h : n < 100) : to_number (two_digits n) = .ok n := by
  have hp := parse_digits_map [n / 10 % 10, n % 10] (by
    intro d hd
    simp only [List.mem_cons, List.mem_singleton, List.not_mem_nil, or_false] at hd
    rcases hd with rfl | rfl <;> omega) 0
  simp only [List.map_cons, List.map_nil] at hp
  rw [two_digits, to_number_eq (by simp), hp]
  simp only [List.reverse_cons, List.reverse_nil, List.nil_append, List.singleton_append,
    Nat.ofDigits_cons, Nat.ofDigits_nil, List.length_cons, List.length_nil]
  congr 1
  omega

theorem to_number_four_digits {n : Nat} (h : n < 10000) : to_number (four_digits n) = .ok n := by
  have hp := parse_digits_map [n / 1000 % 10, n / 100 % 10, n / 10 % 10, n % 10] (by
    intro d hd
    simp only [List.mem_cons, List.mem_singleton, List.not_mem_nil, or_false] at hd
    rcases hd with rfl | rfl | rfl | rfl <;> omega) 0
  simp only [List.map_cons, List.map_nil] at hp
  rw [four_digits, to_number_eq (by simp), hp]
  simp only [List.reverse_cons, List.reverse_nil, List.nil_append, List.singleton_append,
    List.cons_append, Nat.ofDigits_cons, Nat.ofDigits_nil, List.length_cons, List.length_nil]
  congr 1
  omega

/-! ## Dates -/

theorem from_string_date_to_string (d : date) (hy : d.year < 10000) (hm : d.month < 100)
    (hd : d.day < 100) : from_string (date_to_string d) = .ok d := by
  have h4 := to_number_four_digits hy
  have h2 := to_number_two_digits hm
  have h2' := to_number_two_digits hd
  simp only [four_digits, two_digits] at h4 h2 h2'
  simp only [date_to_string, four_digits, two_digits, from_string, List.cons_append,
    List.nil_append, and_self, if_true, h4, h2, h2']

theorem date_to_string_chars (d : date) :
    ∀ c ∈ date_to_string d, (digit_value c).isSome ∨ c = '-' := by
  intro c hc
  simp only [date_to_string, List.mem_append, List.mem_singleton] at hc
  rcases hc with (((hc | hc) | hc) | hc) | hc
  · exact Or.inl (four_digits_digits _ c hc)
  · exact Or.inr hc
  · exact Or.inl (two_digits_digits _ c hc)
  · exact Or.inr hc
  · exact Or.inl (two_digits_digits _ c hc)

/-! ## Money -/

theorem splitOn_pair {x : Char} {a b : Str} (ha : x ∉ a) (hb : x ∉ b) :
    (a ++ [x] ++ b).splitOn x = [a, b] := by
  have h := List.splitOn_intercalate [a, b] x (by
    intro l hl
    simp only [List.mem_cons, List.mem_singleton, List.not_mem_nil, or_false] at hl
    rcases hl with rfl | rfl <;> assumption) (by simp)
  simpa [List.intercalate, List.intersperse, List.flatten] using h

theorem parse_money_abs_render (q r : Nat) (hr : r < 100) :
    parse_money_abs (to_string q ++ ['.'] ++ two_digits r) = .ok (q * 100 + r) := by
  have hs : (to_string q ++ ['.'] ++ two_digits r).splitOn '.' = [to_string q, two_digits r] :=
    splitOn_pair
      (fun h => digit_ne_of_isSome (to_string_digits q _ h) (by decide) rfl)
      (fun h => digit_ne_of_isSome (two_digits_digits r _ h) (by decide) rfl)
  unfold parse_money_abs
  rw [hs]
  simp only [to_number_to_string, to_number_two_digits hr]
  simp [two_digits]

theorem parse_money_of_head {s : Str} (h : s.head? ≠ some '-') :
    parse_money s = match parse_money_abs s with
      | .ok v => .ok ⟨(v : Int)⟩
      | .error e => .error e := by
  unfold parse_money
  split
  · simp at h
  · rfl

theorem to_string_head (n : Nat) : ∃ c cs, to_string n = c :: cs ∧ (digit_value c).isSome := by
  cases h : to_string n with
  | nil => exact absurd h (to_string_ne_nil n)
  | cons c cs => exact ⟨c, cs, rfl, to_string_digits n c (by simp [h])⟩

theorem parse_money_money_to_string (m : money) : parse_money (money_to_string m) = .ok m := by
  obtain ⟨v⟩ := m
  have hr : v.natAbs % 100 < 100 := Nat.mod_lt _ (by norm_num)
  have hp := parse_money_abs_render (v.natAbs / 100) (v.natAbs % 100) hr
  rw [Nat.div_add_mod' v.natAbs 100] at hp
  by_cases hneg : v < 0
  · have hs : money_to_string ⟨v⟩ =
        '-' :: (to_string (v.natAbs / 100) ++ ['.'] ++ two_digits (v.natAbs % 100)) := by
      simp [money_to_string, hneg]
    rw [hs]
    simp only [parse_money, hp]
    congr 2
    omega
  · have hs : money_to_string ⟨v⟩ =
        to_string (v.natAbs / 100) ++ ['.'] ++ two_digits (v.natAbs % 100) := by
      simp [money_to_string, hneg]
    obtain ⟨c, cs, hc, hdig⟩ := to_string_head (v.natAbs / 100)
    rw [hs, parse_money_of_head (by
      rw [hc]
      simp only [List.cons_append, List.head?_cons, ne_eq, Option.some.injEq]
      exact digit_ne_of_isSome hdig (by decide)), hp]
    simp only [Int.natAbs_of_nonneg (not_lt.mp hneg)]

theorem money_to_string_chars (m : money) :
    ∀ c ∈ money_to_string m, (digit_value c).isSome ∨ c = '-' ∨ c = '.' := by
  intro c hc
  simp only [money_to_string, List.mem_append, List.mem_singleton] at hc
  rcases hc with ((hc | hc) | hc) | hc
  · split_ifs at hc <;> simp at hc
    exact Or.inr (Or.inl hc)
  · exact Or.inl (to_string_digits _ c hc)
  · exact Or.inr (Or.inr hc)
  · exact Or.inl (two_digits_digits _ c hc)

/-! ## The codec -/

theorem encode_eq_intercalate (e : earning) : encode e = [':'].intercalate (fields e) := by
  simp [encode, fields, List.intercalate, List.intersperse, List.flatten]

theorem split_encode_fields (e : earning) (hg : ':' ∉ e.guid) (hn : ':' ∉ e.name) :
    split (encode e) ':' = fields e := by
  rw [split, encode_eq_intercalate]
  refine List.splitOn_intercalate (fields e) ':' ?_ (by simp [fields])
  intro l hl
  simp only [fields, List.mem_cons, List.mem_singleton, List.not_mem_nil, or_false] at hl
  rcases hl with rfl | rfl | rfl | rfl | rfl | rfl
  · exact fun h => digit_ne_of_isSome (to_string_digits _ _ h) (by decide) rfl
  · exact hg
  · exact fun h => digit_ne_of_isSome (to_string_digits _ _ h) (by decide) rfl
  · exact hn
  · intro h
    rcases money_to_string_chars _ _ h with h | h | h
    · exact digit_ne_of_isSome h (by decide) rfl
    · exact absurd h (by decide)
    · exact absurd h (by decide)
  · intro h
    rcases date_to_string_chars _ _ h with h | h
    · exact digit_ne_of_isSome h (by decide) rfl
    · exact absurd h (by decide)

theorem decode_fields (random_money : Nat → Nat → money) (e : earning)
    (hy : e.date.year < 10000) (hm : e.date.month < 100) (hd : e.date.day < 100) :
    decode false random_money (fields e) = .ok e := by
  simp [decode, fields, part, bind, Except.bind, pure, Except.pure, to_number_to_string,
    parse_money_money_to_string, from_string_date_to_string e.date hy hm hd]

/-- C1: round trip of the earning codec. For every earning whose guid and name
hold no ':' and whose date fits the `YYYY-MM-DD` format, with random mode off,
splitting the line written by `operator<<` on ':' and decoding the parts with
`operator>>` gives back the record, equal in all six fields. -/
theorem earning_round_trip (random_money : Nat → Nat → money) (r : earning)
    (hguid : ':' ∉ r.guid) (hname : ':' ∉ r.name) (hdate : r.date.valid) :
    decode false random_money (split (encode r) ':') = .ok r := by
  obtain ⟨hy, _, hm, _, hd⟩ := hdate
  rw [split_encode_fields r hguid hname]
  exact decode_fields random_money r (by omega) (by omega) (by omega)

/-- Instance of C1 at `salary`. -/
theorem earning_round_trip_witness :
    (':' ∉ salary.guid ∧ ':' ∉ salary.name ∧ salary.date.valid) ∧
      decode false (fun _ _ => ⟨0⟩) (split (encode salary) ':') = .ok salary :=
  ⟨by decide, earning_round_trip (fun _ _ => ⟨0⟩) salary (by decide) (by decide) (by decide)⟩

/-- C2 as stated fails: the line of an earning named `a:b` splits into seven
fields, not the six renderings. -/
theorem encode_colon_name_seven_fields :
    (split (encode colon_name) ':').length = 7 ∧
      split (encode colon_name) ':' ≠ fields colon_name := by
  decide

/-- C2, amended: for every earning whose guid and name hold no ':', splitting
the line written by `operator<<` on ':' yields exactly six fields, in order the
renderings of id, guid, account, name, amount and date. -/
theorem encode_six_fields (e : earning) (hguid : ':' ∉ e.guid) (hname : ':' ∉ e.name) :
    (split (encode e) ':').length = 6 ∧
      split (encode e) ':' =
        [to_string e.id, e.guid, to_string e.account, e.name, money_to_string e.amount,
         date_to_string e.date] := by
  have h := split_encode_fields e hguid hname
  exact ⟨by rw [h]; rfl, h⟩

/-- Instance of the amended C2 at `salary`. -/
theorem encode_six_fields_witness :
    (':' ∉ salary.guid ∧ ':' ∉ salary.name) ∧
      (split (encode salary) ':').length = 6 ∧
      split (encode salary) ':' =
        [to_string salary.id, salary.guid, to_string salary.account, salary.name,
         money_to_string salary.amount, date_to_string salary.date] :=
  ⟨by decide, encode_six_fields salary (by decide) (by decide)⟩

/-- What `operator>>` computes from six leading parts, written out: the chain of
conversions in the order of the source. -/
theorem decode_cons6 (random : Bool) (random_money : Nat → Nat → money)
    (p0 p1 p2 p3 p4 p5 : Str) (rest : List Str) :
    decode random random_money (p0 :: p1 :: p2 :: p3 :: p4 :: p5 :: rest) =
      match to_number p0, to_number p2, from_string p5 with
      | .ok id, .ok account, .ok date =>
        if random then .ok ⟨id, p1, account, p3, random_money 10 5000, date⟩
        else
          match parse_money p4 with
          | .ok amount => .ok ⟨id, p1, account, p3, amount, date⟩
          | .error e => .error e
      | .error e, _, _ => .error e
      | .ok _, .error e, _ => .error e
      | .ok _, .ok _, .error e => .error e := by
  cases h0 : to_number p0 <;> cases h2 : to_number p2 <;> cases h5 : from_string p5 <;>
    cases random <;> cases h4 : parse_money p4 <;>
    simp [decode, part, bind, Except.bind, pure, Except.pure, h0, h2, h5, h4]

theorem exists_cons6 {α : Type} (l : List α) (h : 6 ≤ l.length) :
    ∃ p0 p1 p2 p3 p4 p5 rest, l = p0 :: p1 :: p2 :: p3 :: p4 :: p5 :: rest := by
  match l, h with
  | p0 :: p1 :: p2 :: p3 :: p4 :: p5 :: rest, _ => exact ⟨p0, p1, p2, p3, p4, p5, rest, rfl⟩

/-- C3 as stated fails: a list of seven parts is decoded into a record, with no
error; the seventh part is never read. -/
theorem decode_seven_parts_ok :
    seven_parts.length ≠ 6 ∧ decode false (fun _ _ => ⟨0⟩) seven_parts = .ok salary :=
  ⟨by decide, rfl⟩

/-- C3, amended: `operator>>` does not test the number of parts and reads
`parts[0]` to `parts[5]` only. For every list of at least six parts, the outcome
(record or error) is the outcome of decoding its first six parts: the parts
after the sixth are ignored and raise no error. -/
theorem decode_reads_first_six (random : Bool) (random_money : Nat → Nat → money)
    (parts : List Str) (h : 6 ≤ parts.length) :
    decode random random_money parts = decode random random_money (parts.take 6) := by
  obtain ⟨p0, p1, p2, p3, p4, p5, rest, rfl⟩ := exists_cons6 parts h
  simp only [List.take_succ_cons, List.take_zero, decode_cons6]

/-- Instance of the amended C3 at the seven parts. -/
theorem decode_reads_first_six_witness :
    6 ≤ seven_parts.length ∧
      decode false (fun _ _ => ⟨0⟩) seven_parts =
        decode false (fun _ _ => ⟨0⟩) (seven_parts.take 6) :=
  ⟨by decide, decode_reads_first_six false (fun _ _ => ⟨0⟩) seven_parts (by decide)⟩

/-- C10: random mode changes the amount only. For every list of six parts:
a record decoded with the flag set and a record decoded with the flag unset
agree on id, guid, account, name and date, and the amount of the former is
`random_money(10, 5000)`; whenever the decode with the flag unset yields a
record, so does the decode with the flag set; and with the flag set the result
does not depend on `parts[4]`. -/
theorem random_mode_changes_amount_only (random_money : Nat → Nat → money)
    (parts : List Str) (hlen : parts.length = 6) :
    (∀ r0 r1, decode false random_money parts = .ok r0 →
        decode true random_money parts = .ok r1 →
        r1.id = r0.id ∧ r1.guid = r0.guid ∧ r1.account = r0.account ∧ r1.name = r0.name ∧
          r1.date = r0.date ∧ r1.amount = random_money 10 5000) ∧
    (∀ r0, decode false random_money parts = .ok r0 →
        decode true random_money parts = .ok { r0 with amount := random_money 10 5000 }) ∧
    (∀ x, decode true random_money (parts.set 4 x) = decode true random_money parts) := by
  obtain ⟨p0, p1, p2, p3, p4, p5, rest, rfl⟩ := exists_cons6 parts (by omega)
  simp only [List.set_cons_succ, List.set_cons_zero, decode_cons6]
  cases h0 : to_number p0 <;> cases h2 : to_number p2 <;> cases h5 : from_string p5 <;>
    cases h4 : parse_money p4 <;> simp

/-- Instance of C10 at the six parts of `salary`, with a generator that returns
42.00: the record decoded in random mode is `salary` with the amount 42.00. -/
theorem random_mode_changes_amount_only_witness :
    six_parts.length = 6 ∧
      decode false (fun _ _ => ⟨4200⟩) six_parts = .ok salary ∧
      decode true (fun _ _ => ⟨4200⟩) six_parts = .ok { salary with amount := ⟨4200⟩ } :=
  ⟨rfl, rfl,
    (random_mode_changes_amount_only (fun _ _ => ⟨4200⟩) six_parts rfl).2.1 salary rfl⟩

/-! ## The store -/

theorem exists_iff (s : data_handler) (id : Nat) : s.exists id = true ↔ ∃ e ∈ s.data, e.id = id := by
  simp [data_handler.exists]

/-- C5 as stated fails: `set_earnings_next_id(0)` on a store that satisfies the
invariant leaves a store with `next_id = 0` below the id 12 it holds. -/
theorem set_next_id_breaks_invariant :
    store_invariant salary_store ∧ ¬ store_invariant (set_earnings_next_id 0 salary_store) := by
  decide

/-- At the largest `size_t` the increment of `add` wraps: from `full_store`,
which satisfies the invariant, `add_earning` gives the new record the id
`size_max` and leaves `next_id = 0`. -/
theorem add_earning_at_size_max :
    store_invariant full_store ∧
      (add_earning "f00d".toList colon_name full_store).next_id = 0 ∧
      ¬ store_invariant (add_earning "f00d".toList colon_name full_store) := by
  decide

/-- C5, amended: from a store in which `next_id` exceeds every id of `data`,
`earning_delete` and `set_earnings_changed` lead to a store in which it still
does, and so does `add_earning` as long as `next_id` is below the largest
`size_t`; `set_earnings_next_id(n)` stores `n` unchecked, and the result
satisfies the invariant exactly when `n` exceeds every id of `data`. -/
theorem invariant_preserved (s : data_handler) (h : store_invariant s) :
    (∀ fresh_guid e, s.next_id < size_max → store_invariant (add_earning fresh_guid e s)) ∧
    (∀ id, store_invariant (earning_delete id s).2) ∧
    store_invariant (set_earnings_changed s) ∧
    (∀ n, store_invariant (set_earnings_next_id n s) ↔ ∀ e ∈ s.data, e.id < n) := by
  refine ⟨?_, ?_, h, fun n => Iff.rfl⟩
  · intro g e hlt x hx
    have hmod : (s.next_id + 1) % (size_max + 1) = s.next_id + 1 :=
      Nat.mod_eq_of_lt (by omega)
    simp only [add_earning, data_handler.add, List.mem_append, List.mem_singleton, hmod] at hx ⊢
    rcases hx with hx | rfl
    · exact Nat.lt_succ_of_lt (h x hx)
    · exact Nat.lt_succ_self _
  · intro id
    unfold earning_delete data_handler.remove
    by_cases hex : s.exists id = true
    · simp only [hex, Bool.not_true, Bool.false_eq_true, if_false, if_true]
      intro x hx
      exact h x (List.mem_of_mem_filter hx)
    · simp only [hex, Bool.not_eq_true] at *
      simpa [hex] using h

/-- Instance of the amended C5 at `salary_store`: adding a record gives it id 13
and moves `next_id` to 14. -/
theorem invariant_preserved_witness :
    store_invariant salary_store ∧ salary_store.next_id < size_max ∧
      store_invariant (add_earning "f00d".toList colon_name salary_store) ∧
      (add_earning "f00d".toList colon_name salary_store).next_id = 14 :=
  ⟨by decide, by decide,
    (invariant_preserved salary_store (by decide)).1 "f00d".toList colon_name (by decide),
    by decide⟩

/-- C6: removing an absent id signals an error and changes nothing. When no
record of the store has the id, `earning_delete` throws its exception and the
store (data, next_id, changed) is what it was; when a record has the id, the
call raises no error. -/
theorem earning_delete_absent (s : data_handler) (id : Nat) :
    ((∀ e ∈ s.data, e.id ≠ id) →
      earning_delete id s =
        (.error (.budget_exception "There are no earning with id ".toList), s)) ∧
    ((∃ e ∈ s.data, e.id = id) → (earning_delete id s).1 = .ok ()) := by
  constructor
  · intro h
    have hex : s.exists id = false := by
      rw [← Bool.not_eq_true, exists_iff]
      rintro ⟨e, he, rfl⟩
      exact h e he rfl
    simp [earning_delete, hex]
  · intro h
    have hex : s.exists id = true := (exists_iff s id).mpr h
    simp [earning_delete, data_handler.remove, hex]

/-- Instance of C6 at `salary_store`: id 5 is absent, id 12 is present. -/
theorem earning_delete_absent_witness :
    (∀ e ∈ salary_store.data, e.id ≠ 5) ∧
      earning_delete 5 salary_store =
        (.error (.budget_exception "There are no earning with id ".toList), salary_store) ∧
      (∃ e ∈ salary_store.data, e.id = 12) ∧
      (earning_delete 12 salary_store).1 = .ok () :=
  ⟨by decide, (earning_delete_absent salary_store 5).1 (by decide), by decide,
    (earning_delete_absent salary_store 12).2 (by decide)⟩

/-! ## The dispatcher -/

/-- C7 as stated fails: `earning all extra` has an argument too many for `all`
and is accepted; `show_all_earnings` is called and nothing is thrown. -/
theorem handle_all_extra_argument :
    handle salary_store ["earning".toList, "all".toList, "extra".toList] =
      .ok .show_all_earnings := by
  rfl

/-- C7, amended: `handle` throws for every argument list whose subcommand token
is not one of show, all, add, edit, delete; for `show` with more than four
tokens in all; and for `edit` or `delete` with no id. `all` and `add` accept any
number of further arguments and ignore them. -/
theorem handle_usage_errors (s : data_handler) (args : List Str) :
    (∀ sub, args[1]? = some sub → sub ∉ subcommands →
      handle s args =
        .error (.budget_exception ("Invalid subcommand \"".toList ++ sub ++ "\"".toList))) ∧
    (args[1]? = some "show".toList → 4 < args.length →
      handle s args = .error (.budget_exception "Too many arguments to earning show".toList)) ∧
    (args.length = 2 → (args[1]? = some "edit".toList ∨ args[1]? = some "delete".toList) →
      ∃ msg, handle s args = .error (.budget_exception msg)) ∧
    (args[1]? = some "all".toList → handle s args = .ok .show_all_earnings) ∧
    (args[1]? = some "add".toList → handle s args = .ok .add) := by
  have hlen : ∀ sub, args[1]? = some sub → args.length ≠ 1 := by
    intro sub h hl
    have := List.getElem?_eq_none (l := args) (n := 1) (by omega)
    rw [this] at h
    exact absurd h (by simp)
  refine ⟨?_, ?_, ?_, ?_, ?_⟩
  · intro sub h hsub
    simp only [subcommands, List.mem_cons, List.mem_singleton, List.not_mem_nil, or_false,
      not_or] at hsub
    obtain ⟨h1, h2, h3, h4, h5⟩ := hsub
    simp only [handle, part, h, hlen sub h, bind, Except.bind, if_false, h1, h2, h3, h4, h5]
  · intro h hl
    have h1 : args.length ≠ 1 := by omega
    have h2 : args.length ≠ 2 := by omega
    have h3 : args.length ≠ 3 := by omega
    have h4 : args.length ≠ 4 := by omega
    simp only [handle, part, h, bind, Except.bind, if_false, if_true, h1, h2, h3, h4]
  · intro hl h
    have h1 : args.length ≠ 1 := by omega
    have hd : ("delete".toList = "show".toList) = False := by decide
    have hd2 : ("delete".toList = "all".toList) = False := by decide
    have hd3 : ("delete".toList = "add".toList) = False := by decide
    have he : ("edit".toList = "show".toList) = False := by decide
    have he2 : ("edit".toList = "all".toList) = False := by decide
    have he3 : ("edit".toList = "add".toList) = False := by decide
    have he4 : ("edit".toList = "delete".toList) = False := by decide
    have hlt : args.length < 3 := by omega
    rcases h with h | h
    · exact ⟨"Not enough args".toList, by
        simp only [handle, part, h, bind, Except.bind, if_false, if_true, h1, enough_args, hlt,
          he, he2, he3, he4]⟩
    · exact ⟨"Not enough args".toList, by
        simp only [handle, part, h, bind, Except.bind, if_false, if_true, h1, enough_args, hlt,
          hd, hd2, hd3]⟩
  · intro h
    have ha : ("all".toList = "show".toList) = False := by decide
    simp only [handle, part, h, hlen _ h, bind, Except.bind, if_false, if_true, ha]
  · intro h
    have ha : ("add".toList = "show".toList) = False := by decide
    have ha2 : ("add".toList = "all".toList) = False := by decide
    simp only [handle, part, h, hlen _ h, bind, Except.bind, if_false, if_true, ha, ha2]

/-- Instance of the amended C7: an unknown subcommand, a `show` with five
tokens, a `delete` without id, and an `all` with a further argument. -/
theorem handle_usage_errors_witness :
    handle salary_store ["earning".toList, "list".toList] =
        .error (.budget_exception "Invalid subcommand \"list\"".toList) ∧
      handle salary_store
          ["earning".toList, "show".toList, "1".toList, "2018".toList, "x".toList] =
        .error (.budget_exception "Too many arguments to earning show".toList) ∧
      (∃ msg, handle salary_store ["earning".toList, "delete".toList] =
        .error (.budget_exception msg)) ∧
      handle salary_store ["earning".toList, "all".toList, "extra".toList] =
        .ok .show_all_earnings :=
  ⟨(handle_usage_errors salary_store ["earning".toList, "list".toList]).1 "list".toList rfl
      (by decide),
    (handle_usage_errors salary_store
      ["earning".toList, "show".toList, "1".toList, "2018".toList, "x".toList]).2.1 rfl
      (by decide),
    (handle_usage_errors salary_store ["earning".toList, "delete".toList]).2.2.1 rfl
      (Or.inr rfl),
    (handle_usage_errors salary_store
      ["earning".toList, "all".toList, "extra".toList]).2.2.2.1 rfl⟩

/-! ## The listings -/

/-- The loop of a listing whose step keeps the earnings with `p e = true`: the
rows of the kept earnings are appended in order, their amounts added to the
total, and they are counted. -/
theorem foldl_listing (account_name : Nat → Str) (p : earning → Bool)
    (step : listing → earning → listing)
    (hstep : ∀ acc e, step acc e =
      if p e then ⟨acc.contents ++ [earning_row account_name e], acc.total.add e.amount,
        acc.count + 1⟩ else acc)
    (l : List earning) (acc : listing) :
    l.foldl step acc =
      ⟨acc.contents ++ (l.filter p).map (earning_row account_name),
        ⟨acc.total.value + ((l.filter p).map (fun e => e.amount.value)).sum⟩,
        acc.count + (l.filter p).length⟩ := by
  induction l generalizing acc with
  | nil => simp
  | cons e l ih =>
    rw [List.foldl_cons, ih, hstep]
    by_cases h : p e = true
    · simp [h, money.add, List.filter_cons, add_assoc, add_comm 1]
    · simp [h, List.filter_cons]

/-- C9: `show_earnings(month, year)` filters by period and totals. For every
store, month and year, with `matched` the records of the store, in store order,
whose date has that year and that month: when `matched` is empty only the "No
earnings for" line is written and no table; otherwise one table is written
whose rows are, for each record of `matched` in order, its id, date, account
name, name, amount and edit link, followed by the Total row carrying the sum of
their amounts. The store is returned unmodified. On the store of Rent
(2018-01-05, 1000.00), Groceries (2018-01-09, 250.50) and RENTAL (2018-02-01,
450.25): January 2018 lists Rent and Groceries with the total 1250.50, and
March 2018 writes the message alone. -/
theorem show_earnings_lists_period (account_name : Nat → Str) (month year : Nat)
    (s : data_handler) (w : writer) :
    show_earnings account_name month year s w =
      (s, w ++ [.title_begin, .text "Earnings of ".toList, .month month, .text " ".toList,
          .year year, .text " ".toList, .add_button "earnings".toList,
          .year_month_selector "earnings".toList year month, .title_end] ++
        (if s.data.filter (fun e => decide (e.date.year = year ∧ e.date.month = month)) = [] then
          [.text "No earnings for ".toList, .month month, .text "-".toList, .year year,
            .end_of_line]
        else
          [.display_table
            ["ID".toList, "Date".toList, "Account".toList, "Name".toList, "Amount".toList,
              "Edit".toList]
            ((s.data.filter (fun e => decide (e.date.year = year ∧ e.date.month = month))).map
                (fun e => [to_string e.id, date_to_string e.date, account_name e.account,
                  e.name, money_to_string e.amount,
                  "::edit::earnings::".toList ++ to_string e.id]) ++
              [[[], [], [], "Total".toList,
                money_to_string ⟨((s.data.filter
                  (fun e => decide (e.date.year = year ∧ e.date.month = month))).map
                    (fun e => e.amount.value)).sum⟩, []]])
            1 [] 0 1])) ∧
    show_earnings (fun _ => "bank".toList) 1 2018 rent_store [] =
      (rent_store,
        [.title_begin, .text "Earnings of ".toList, .month 1, .text " ".toList, .year 2018,
         .text " ".toList, .add_button "earnings".toList,
         .year_month_selector "earnings".toList 2018 1, .title_end,
         .display_table
          ["ID".toList, "Date".toList, "Account".toList, "Name".toList, "Amount".toList,
            "Edit".toList]
          [["1".toList, "2018-01-05".toList, "bank".toList, "Rent".toList, "1000.00".toList,
              "::edit::earnings::1".toList],
           ["2".toList, "2018-01-09".toList, "bank".toList, "Groceries".toList,
              "250.50".toList, "::edit::earnings::2".toList],
           [[], [], [], "Total".toList, "1250.50".toList, []]] 1 [] 0 1]) ∧
    show_earnings (fun _ => "bank".toList) 3 2018 rent_store [] =
      (rent_store,
        [.title_begin, .text "Earnings of ".toList, .month 3, .text " ".toList, .year 2018,
         .text " ".toList, .add_button "earnings".toList,
         .year_month_selector "earnings".toList 2018 3, .title_end,
         .text "No earnings for ".toList, .month 3, .text "-".toList, .year 2018,
         .end_of_line]) := by
  have hfold := foldl_listing account_name
    (fun e => decide (e.date.year = year ∧ e.date.month = month))
    (show_step account_name month year) (by
      intro acc e
      unfold show_step
      by_cases h : e.date.year = year ∧ e.date.month = month
      · simp [h]
      · simp [h]) s.data ⟨[], ⟨0⟩, 0⟩
  refine ⟨?_, rfl, rfl⟩
  unfold show_earnings
  simp only [hfold, List.nil_append, zero_add, List.length_eq_zero]
  split_ifs <;> rfl

/-- The search scenario: "rent" lists Rent and RENTAL and totals 1000.00 + 450.25. -/
theorem search_rent_scenario :
    (search_earnings (fun _ => "bank".toList) "rent".toList rent_store []).2 =
      [.title_begin, .text "Results".toList, .title_end,
       .display_table
        ["ID".toList, "Date".toList, "Account".toList, "Name".toList, "Amount".toList,
          "Edit".toList]
        [["1".toList, "2018-01-05".toList, "bank".toList, "Rent".toList, "1000.00".toList,
            "::edit::earnings::1".toList],
         ["3".toList, "2018-02-01".toList, "bank".toList, "RENTAL".toList, "450.25".toList,
            "::edit::earnings::3".toList],
         [[], [], [], "Total".toList, "1450.25".toList, []]] 1 [] 0 1] := by
  rfl

/-! ## From a canonical line back to the same line -/

theorem exists_digits_of_isSome (s : Str) (h : ∀ c ∈ s, (digit_value c).isSome) :
    ∃ B : List Nat, (∀ d ∈ B, d < 10) ∧ s = B.map digit_char := by
  induction s with
  | nil => exact ⟨[], by simp, rfl⟩
  | cons c cs ih =>
    obtain ⟨B, hB, hcs⟩ := ih (fun x hx => h x (List.mem_cons_of_mem _ hx))
    obtain ⟨d, hd⟩ := Option.isSome_iff_exists.mp (h c (List.mem_cons_self _ _))
    obtain ⟨hlt, hc⟩ := digit_char_of_digit_value hd
    refine ⟨d :: B, ?_, by rw [List.map_cons, hc, ← hcs]⟩
    intro x hx
    rcases List.mem_cons.mp hx with rfl | hx
    · exact hlt
    · exact hB x hx

theorem to_string_to_number {s : Str} (h : canonical_number s) :
    ∃ n, to_number s = .ok n ∧ to_string n = s := by
  obtain ⟨hne, hdig, hzero⟩ := h
  obtain ⟨B, hB, rfl⟩ := exists_digits_of_isSome s hdig
  have hBrev : ∀ d ∈ B.reverse, d < 10 := fun d hd => hB d (List.mem_reverse.mp hd)
  refine ⟨Nat.ofDigits 10 B.reverse, ?_, ?_⟩
  · rw [to_number_eq hne, parse_digits_map B hB 0]
    simp
  · cases B with
    | nil => exact absurd rfl hne
    | cons d B' =>
      by_cases hd0 : d = 0
      · subst hd0
        have hs := hzero rfl
        simp only [List.map_cons, List.cons.injEq, List.map_eq_nil_iff] at hs
        obtain ⟨_, rfl⟩ := hs
        rfl
      · have hlast : ∀ hnil : (d :: B').reverse ≠ [], (d :: B').reverse.getLast hnil ≠ 0 := by
          intro hnil
          simpa using hd0
        have hdigits := Nat.digits_ofDigits 10 (by norm_num) (d :: B').reverse hBrev hlast
        have hpos : Nat.ofDigits 10 (d :: B').reverse ≠ 0 := by
          intro h0
          rw [h0] at hdigits
          simp at hdigits
        rw [to_string_pos hpos, hdigits, List.reverse_reverse]

theorem two_digits_to_number {c : Str} (hlen : c.length = 2)
    (hdig : ∀ x ∈ c, (digit_value x).isSome) :
    ∃ n, n < 100 ∧ to_number c = .ok n ∧ two_digits n = c := by
  obtain ⟨B, hB, rfl⟩ := exists_digits_of_isSome c hdig
  match B, hB, hlen with
  | [a, b], hB, _ =>
    have ha : a < 10 := hB a (by simp)
    have hb : b < 10 := hB b (by simp)
    refine ⟨10 * a + b, by omega, ?_, ?_⟩
    · rw [to_number_eq (by simp), parse_digits_map [a, b] hB 0]
      simp [Nat.ofDigits_cons]
      omega
    · have h1 : (10 * a + b) / 10 % 10 = a := by omega
      have h2 : (10 * a + b) % 10 = b := by omega
      simp [two_digits, h1, h2]

theorem four_digits_to_number {c : Str} (hlen : c.length = 4)
    (hdig : ∀ x ∈ c, (digit_value x).isSome) :
    ∃ n, n < 10000 ∧ to_number c = .ok n ∧ four_digits n = c := by
  obtain ⟨B, hB, rfl⟩ := exists_digits_of_isSome c hdig
  match B, hB, hlen with
  | [a, b, c, d], hB, _ =>
    have ha : a < 10 := hB a (by simp)
    have hb : b < 10 := hB b (by simp)
    have hc : c < 10 := hB c (by simp)
    have hd : d < 10 := hB d (by simp)
    refine ⟨1000 * a + 100 * b + 10 * c + d, by omega, ?_, ?_⟩
    · rw [to_number_eq (by simp), parse_digits_map [a, b, c, d] hB 0]
      simp [Nat.ofDigits_cons]
      omega
    · have h1 : (1000 * a + 100 * b + 10 * c + d) / 1000 % 10 = a := by omega
      have h2 : (1000 * a + 100 * b + 10 * c + d) / 100 % 10 = b := by omega
      have h3 : (1000 * a + 100 * b + 10 * c + d) / 10 % 10 = c := by omega
      have h4 : (1000 * a + 100 * b + 10 * c + d) % 10 = d := by omega
      simp [four_digits, h1, h2, h3, h4]

theorem from_string_of_layout {s : Str} (h : date_layout s) :
    ∃ d, from_string s = .ok d ∧ date_to_string d = s := by
  unfold date_layout at h
  split at h
  · rename_i y1 y2 y3 y4 s1 m1 m2 s2 d1 d2
    obtain ⟨rfl, rfl, hdig⟩ := h
    obtain ⟨y, _, hy, hy'⟩ := four_digits_to_number (c := [y1, y2, y3, y4]) rfl
      (fun x hx => hdig x (by simp only [List.mem_cons] at hx ⊢; tauto))
    obtain ⟨m, _, hm, hm'⟩ := two_digits_to_number (c := [m1, m2]) rfl
      (fun x hx => hdig x (by simp only [List.mem_cons] at hx ⊢; tauto))
    obtain ⟨d, _, hd, hd'⟩ := two_digits_to_number (c := [d1, d2]) rfl
      (fun x hx => hdig x (by simp only [List.mem_cons] at hx ⊢; tauto))
    refine ⟨⟨y, m, d⟩, ?_, ?_⟩
    · simp only [from_string, and_self, if_true, hy, hm, hd]
    · simp only [date_to_string, hy', hm', hd', List.cons_append, List.nil_append]
  · exact absurd h id

theorem parse_money_abs_of_canonical {t : Str} (h : canonical_money_abs t) :
    ∃ v, parse_money_abs t = .ok v ∧
      to_string (v / 100) ++ ['.'] ++ two_digits (v % 100) = t := by
  have hjoin := List.intercalate_splitOn t '.'
  unfold canonical_money_abs at h
  unfold parse_money_abs
  split at h
  · rename_i d c hsplit
    obtain ⟨hd, hlen, hdig⟩ := h
    obtain ⟨q, hq, hq'⟩ := to_string_to_number hd
    obtain ⟨r, hr, hr', hr''⟩ := two_digits_to_number hlen hdig
    refine ⟨q * 100 + r, ?_, ?_⟩
    · simp only [hsplit, hq, hr', hlen, if_true]
    · have h1 : (q * 100 + r) / 100 = q := by omega
      have h2 : (q * 100 + r) % 100 = r := by omega
      rw [h1, h2, hq', hr'']
      rw [hsplit] at hjoin
      simpa [List.intercalate, List.intersperse, List.flatten] using hjoin
  · exact absurd h id

theorem parse_money_of_canonical {s : Str} (h : canonical_money s) :
    ∃ m, parse_money s = .ok m ∧ money_to_string m = s := by
  unfold canonical_money at h
  split at h
  · rename_i t
    obtain ⟨habs, hne⟩ := h
    obtain ⟨v, hv, hv'⟩ := parse_money_abs_of_canonical habs
    have hpos : v ≠ 0 := by
      intro h0
      subst h0
      exact hne hv'.symm
    refine ⟨⟨-(v : Int)⟩, by simp only [parse_money, hv], ?_⟩
    have hneg : -(v : Int) < 0 := by omega
    simp only [money_to_string, hneg, if_true, Int.natAbs_neg, Int.natAbs_ofNat]
    simpa using hv'
  · rename_i hnot
    obtain ⟨v, hv, hv'⟩ := parse_money_abs_of_canonical h
    have hhead : s.head? ≠ some '-' := by
      intro hh
      cases s with
      | nil => simp at hh
      | cons c cs =>
        simp only [List.head?_cons, Option.some.injEq] at hh
        subst hh
        exact hnot cs rfl
    refine ⟨⟨(v : Int)⟩, by rw [parse_money_of_head hhead, hv], ?_⟩
    have hneg : ¬ ((v : Int) < 0) := by omega
    simp only [money_to_string, hneg, if_false, Int.natAbs_ofNat]
    simpa using hv'

theorem decode_then_encode_line (random_money : Nat → Nat → money) (line : Str)
    (h : well_formed line) :
    ∃ r, decode false random_money (split line ':') = .ok r ∧ encode r = line ∧
      r.id ≤ size_max ∧ r.account ≤ size_max ∧ r.date.valid := by
  have hjoin := List.intercalate_splitOn line ':'
  unfold well_formed at h
  split at h
  · rename_i id guid account name amount date hsplit
    obtain ⟨⟨hid, hidfit⟩, ⟨hacc, haccfit⟩, hamount, hlayout, hvalid⟩ := h
    obtain ⟨i, hi, hi'⟩ := to_string_to_number hid
    obtain ⟨a, ha, ha'⟩ := to_string_to_number hacc
    obtain ⟨m, hm, hm'⟩ := parse_money_of_canonical hamount
    obtain ⟨d, hd, hd'⟩ := from_string_of_layout hlayout
    simp only [fits_size_t, hi] at hidfit
    simp only [fits_size_t, ha] at haccfit
    simp only [reads_valid_date, hd] at hvalid
    refine ⟨⟨i, guid, a, name, m, d⟩, ?_, ?_, hidfit, haccfit, hvalid⟩
    · rw [hsplit, decode_cons6]
      simp only [hi, ha, hm, hd, Bool.false_eq_true, if_false]
    · rw [split] at hsplit
      rw [hsplit] at hjoin
      rw [encode_eq_intercalate]
      simp only [fields, hi', ha', hm', hd']
      exact hjoin
  · exact absurd h id

theorem mapM_decode_encode (random_money : Nat → Nat → money) (lines : List Str)
    (h : ∀ l ∈ lines, well_formed l) :
    ∃ data, lines.mapM (fun l => decode false random_money (split l ':')) = .ok data ∧
      data.map encode = lines := by
  induction lines with
  | nil => exact ⟨[], rfl, rfl⟩
  | cons l ls ih =>
    obtain ⟨data, hdata, hmap⟩ := ih (fun x hx => h x (List.mem_cons_of_mem _ hx))
    obtain ⟨r, hr, hr', _⟩ :=
      decode_then_encode_line random_money l (h l (List.mem_cons_self _ _))
    refine ⟨r :: data, ?_, by rw [List.map_cons, hr', hmap]⟩
    rw [List.mapM_cons, hr, hdata]
    rfl

/-- The lines with an id past `size_max`, or with month 99, are not well formed. -/
theorem wide_id_line_not_well_formed : ¬ well_formed wide_id_line ∧ ¬ well_formed month_99_line := by
  decide

/-- C4: load-then-save at the codec level. For every well-formed earnings line
(six ':'-separated fields; id and account canonical decimals that a `size_t`
holds, amount and date in canonical format), with random mode off, `operator>>`
decodes the split line into a record, whose id and account are at most
`size_max` and whose date is a calendar date, and `operator<<` of that record
writes the same line, character for character. Hence for a list of well-formed
lines, decoding every line in order succeeds and encoding the records in that
order gives back the same lines. -/
theorem decode_then_encode (random_money : Nat → Nat → money) (lines : List Str)
    (h : ∀ l ∈ lines, well_formed l) :
    (∀ l ∈ lines, ∃ r, decode false random_money (split l ':') = .ok r ∧ encode r = l ∧
      r.id ≤ size_max ∧ r.account ≤ size_max ∧ r.date.valid) ∧
    ∃ data, lines.mapM (fun l => decode false random_money (split l ':')) = .ok data ∧
      data.map encode = lines :=
  ⟨fun l hl => decode_then_encode_line random_money l (h l hl),
    mapM_decode_encode random_money lines h⟩

/-- Instance of C4 at a file of two lines: the line of `salary`, which decodes
to `salary`, and a second line. -/
theorem decode_then_encode_witness :
    (∀ l ∈ [salary_line, rent_line], well_formed l) ∧
      ((∀ l ∈ [salary_line, rent_line],
          ∃ r, decode false (fun _ _ => ⟨0⟩) (split l ':') = .ok r ∧ encode r = l ∧
            r.id ≤ size_max ∧ r.account ≤ size_max ∧ r.date.valid) ∧
        ∃ data, [salary_line, rent_line].mapM
            (fun l => decode false (fun _ _ => ⟨0⟩) (split l ':')) = .ok data ∧
          data.map encode = [salary_line, rent_line]) ∧
      decode false (fun _ _ => ⟨0⟩) (split salary_line ':') = .ok salary ∧
      encode salary = salary_line :=
  ⟨by decide, decode_then_encode (fun _ _ => ⟨0⟩) [salary_line, rent_line] (by decide), rfl,
    by decide⟩

end budget
